import Mathlib

/-!
Verification development for the veo-backend repository: a relay server that
submits video-generation jobs to a remote long-running-operation API, tracks
them in an in-memory store, polls them from a background monitor, and serves
status reads.  The definitions below are shallow embeddings of the JavaScript
source (`src/server.js`, store-based variant, and `src/unnamed/part_000`,
the stateless variant).
-/

/-! ## JavaScript value model

JSON-like values as they flow through the handlers.  `Option JsonVal` models
a possibly-undefined JavaScript value (`none` = `undefined` or an absent
field); `JsonVal.null` models the JavaScript `null` literal. -/

inductive JsonVal where
  | null : JsonVal
  | bool : Bool → JsonVal
  | num : Int → JsonVal
  | str : String → JsonVal
  | arr : List JsonVal → JsonVal
  | obj : List (String × JsonVal) → JsonVal

/-- Property access `v.k`: defined on objects, `undefined` elsewhere. -/
def JsonVal.getField : JsonVal → String → Option JsonVal
  | JsonVal.obj fields, k => (fields.find? (fun p => p.fst == k)).map (fun p => p.snd)
  | _, _ => none

/-- Index access `v[i]`: element of an array, one-character string of a
string, `undefined` elsewhere. -/
def JsonVal.getIndex : JsonVal → Nat → Option JsonVal
  | JsonVal.arr xs, i => xs.get? i
  | JsonVal.str s, i => (s.toList.get? i).map (fun c => JsonVal.str (String.mk [c]))
  | _, _ => none

/-- JavaScript truthiness of a JSON value. -/
def jsTruthy : JsonVal → Bool
  | JsonVal.null => false
  | JsonVal.bool b => b
  | JsonVal.num n => !(n == 0)
  | JsonVal.str s => !(s == "")
  | JsonVal.arr _ => true
  | JsonVal.obj _ => true

/-- Whether a present value is the JavaScript `null` (nullish). -/
def jsNullish : JsonVal → Bool
  | JsonVal.null => true
  | _ => false

/-- Truthiness of a possibly-undefined value (`undefined` is falsy). -/
def jsTruthyOpt : Option JsonVal → Bool
  | none => false
  | some v => jsTruthy v

/-- Optional chaining `v?.k`. -/
def jsOpt (v : Option JsonVal) (k : String) : Option JsonVal :=
  match v with
  | none => none
  | some x => if jsNullish x then none else JsonVal.getField x k

/-- Optional chaining `v?.[i]`. -/
def jsOptIdx (v : Option JsonVal) (i : Nat) : Option JsonVal :=
  match v with
  | none => none
  | some x => if jsNullish x then none else JsonVal.getIndex x i

/-- The pattern `e || null`: keep a truthy value, collapse anything falsy. -/
def truthyFilter (v : Option JsonVal) : Option JsonVal :=
  match v with
  | none => none
  | some x => if jsTruthy x then some x else none

/-! ## Field-name constants used by the handlers -/

def kDone : String := "done"
def kResponse : String := "response"
def kName : String := "name"
def kGenerateVideoResponse : String := "generateVideoResponse"
def kGeneratedSamples : String := "generatedSamples"
def kGeneratedVideos : String := "generatedVideos"
def kResult : String := "result"
def kVideo : String := "video"
def kUri : String := "uri"

/-! ## Result Extractor (src/unnamed/part_000, `extractVideoUri`) -/

/-- First guard of `extractVideoUri`: the canonical Veo 3.1 shape
`response.generateVideoResponse && Array.isArray(generatedSamples) &&
generatedSamples[0]?.video?.uri`. -/
def canonicalVideoUri (response : JsonVal) : Option JsonVal :=
  match JsonVal.getField response kGenerateVideoResponse with
  | none => none
  | some g =>
    if jsTruthy g then
      match JsonVal.getField g kGeneratedSamples with
      | some (JsonVal.arr xs) =>
        truthyFilter (jsOpt (jsOpt (jsOptIdx (some (JsonVal.arr xs)) 0) kVideo) kUri)
      | _ => none
    else none

/-- First fallback shape: `response.result?.generatedVideos?.[0]?.video?.uri`. -/
def altVideoUri1 (response : JsonVal) : Option JsonVal :=
  truthyFilter
    (jsOpt (jsOpt (jsOptIdx (jsOpt (JsonVal.getField response kResult) kGeneratedVideos) 0)
      kVideo) kUri)

/-- Second fallback shape: `response.result?.generatedVideos?.[0]?.uri`. -/
def altVideoUri2 (response : JsonVal) : Option JsonVal :=
  truthyFilter
    (jsOpt (jsOptIdx (jsOpt (JsonVal.getField response kResult) kGeneratedVideos) 0) kUri)

/-- Model of `extractVideoUri(response)` from src/unnamed/part_000: guard
`if (!response) return null`, then the canonical shape, then the two
fallbacks, else `null`. -/
def extractVideoUri (response : JsonVal) : Option JsonVal :=
  if jsTruthy response then
    match canonicalVideoUri response with
    | some u => some u
    | none =>
      match altVideoUri1 response with
      | some u => some u
      | none => altVideoUri2 response
  else none

/-- The call site `extractVideoUri(json.response)` where the field may be
absent (an absent argument is falsy, so the guard yields `null`). -/
def extractVideoUriOpt (response : Option JsonVal) : Option JsonVal :=
  match response with
  | none => none
  | some v => extractVideoUri v

/-- Model of the inline extraction in src/server.js (monitor and status
handler): `json.response?.generateVideoResponse?.generatedSamples?.[0]?.video?.uri || null`. -/
def inlineVideoUri (json : JsonVal) : Option JsonVal :=
  truthyFilter
    (jsOpt (jsOpt (jsOptIdx
      (jsOpt (jsOpt (JsonVal.getField json kResponse) kGenerateVideoResponse)
        kGeneratedSamples) 0) kVideo) kUri)

/-! ## Operation store (src/server.js, store-based variant)

The `operations` `Map` keyed by locally generated ids.  `storeSet` models
`Map.set` (replace or append), `storeGet` models `Map.get`. -/

inductive OpStatus where
  | processing : OpStatus
  | completed : OpStatus
deriving DecidableEq

/-- The record placed in the `operations` map by `/api/generate`.
`Option` fields model values that may be the JS `null`/`undefined`. -/
structure Operation where
  id : String
  status : OpStatus
  visualPrompt : Option String
  audioPrompt : Option String
  duration : String
  aspectRatio : String
  createdAt : Nat
  completedAt : Option Nat
  remoteName : JsonVal
  videoUrl : Option JsonVal
  metadata : Option JsonVal

def OpStore : Type := List (String × Operation)

def storeGet (m : OpStore) (k : String) : Option Operation :=
  match m with
  | [] => none
  | (k', v) :: rest => if k' = k then some v else storeGet rest k

def storeSet (m : OpStore) (k : String) (v : Operation) : OpStore :=
  match m with
  | [] => [(k, v)]
  | (k', v') :: rest => if k' = k then (k, v) :: rest else (k', v') :: storeSet rest k v

/-! ## Remote poll outcomes

A background tick or an opportunistic on-read poll observes exactly one of:
a thrown transport error, a non-2xx upstream response, or a parsed JSON
body. -/

inductive PollResult where
  | transportError : PollResult
  | httpError : Nat → String → PollResult
  | ok : JsonVal → PollResult

def PollResult.isError : PollResult → Bool
  | PollResult.transportError => true
  | PollResult.httpError _ _ => true
  | PollResult.ok _ => false

/-! ## Background monitor (src/server.js, `monitorOperation`) -/

/-- `maxAttempts` from `monitorOperation`. -/
def maxAttempts : Nat := 120

/-- Observable outcome of one `setInterval` callback run of
`monitorOperation`: the store afterwards, the incremented local attempt
counter, whether the interval is still scheduled (`clearInterval` not
called), whether a remote poll (`fetch`) was issued, and whether a
monitoring error was logged. -/
structure TickResult where
  store : OpStore
  attempts : Nat
  active : Bool
  polled : Bool
  loggedError : Bool

/-- One tick of `monitorOperation` (src/server.js lines 303-358), with the
remote poll outcome supplied as an oracle.  Faithful branch order:
`attempts++`; missing record or already-completed record clears the
interval before any fetch; a non-2xx response logs and returns early
(skipping the attempt-cap check); a thrown transport error is caught and
logged; a `done` body writes the completed record and clears the interval;
finally `attempts >= maxAttempts` clears the interval. -/
def monitorTick (operationId : String) (now : Nat) (store : OpStore)
    (attempts : Nat) (p : PollResult) : TickResult :=
  match storeGet store operationId with
  | none => ⟨store, attempts + 1, false, false, false⟩
  | some stored =>
    if stored.status = OpStatus.completed then ⟨store, attempts + 1, false, false, false⟩
    else
      match p with
      | PollResult.httpError _ _ => ⟨store, attempts + 1, true, true, true⟩
      | PollResult.transportError =>
        ⟨store, attempts + 1, decide (attempts + 1 < maxAttempts), true, true⟩
      | PollResult.ok json =>
        if jsTruthyOpt (JsonVal.getField json kDone) then
          ⟨storeSet store operationId
            { stored with
              status := OpStatus.completed
              videoUrl := inlineVideoUri json
              metadata := JsonVal.getField json kResponse
              completedAt := some now },
            attempts + 1, false, true, false⟩
        else
          ⟨store, attempts + 1, decide (attempts + 1 < maxAttempts), true, false⟩

/-! ## Status read handler (src/server.js, `GET /api/status/:id`) -/

/-- Response body shapes the status handler can produce. -/
inductive ReadBody where
  | notFound : String → ReadBody
  | completedResp : String → Option JsonVal → Option JsonVal → ReadBody
  | processingResp : String → ReadBody
  | checkFailed : Nat → String → ReadBody
  | checkError : ReadBody

/-- Observable outcome of one status read: store afterwards, HTTP status
code, whether a remote poll (`fetch`) was issued, and the body. -/
structure ReadResult where
  store : OpStore
  httpStatus : Nat
  polled : Bool
  body : ReadBody

/-- One run of the status handler (src/server.js lines 222-295), remote
poll outcome supplied as an oracle.  Branch order: unknown id is 404
before any fetch; a completed record with a truthy cached `videoUrl`
returns from cache without fetching; otherwise the remote operation is
fetched, a non-2xx or thrown error yields 500 without touching the store,
a `done` body mutates the stored record to completed and echoes it, and a
not-done body reports processing without touching the store. -/
def statusRead (store : OpStore) (operationId : String) (now : Nat)
    (p : PollResult) : ReadResult :=
  match storeGet store operationId with
  | none => ⟨store, 404, false, ReadBody.notFound operationId⟩
  | some stored =>
    if stored.status = OpStatus.completed ∧ jsTruthyOpt stored.videoUrl = true then
      ⟨store, 200, false, ReadBody.completedResp operationId stored.videoUrl stored.metadata⟩
    else
      match p with
      | PollResult.httpError s t => ⟨store, 500, true, ReadBody.checkFailed s t⟩
      | PollResult.transportError => ⟨store, 500, true, ReadBody.checkError⟩
      | PollResult.ok json =>
        if jsTruthyOpt (JsonVal.getField json kDone) then
          ⟨storeSet store operationId
            { stored with
              status := OpStatus.completed
              videoUrl := inlineVideoUri json
              metadata := JsonVal.getField json kResponse
              completedAt := some now },
            200, true,
            ReadBody.completedResp operationId (inlineVideoUri json)
              (JsonVal.getField json kResponse)⟩
        else
          ⟨store, 200, true, ReadBody.processingResp operationId⟩

/-! ## Operation id generation and the generate handler -/

/-- Digit characters of `Number.prototype.toString(36)`: `0-9` then `a-z`. -/
def base36DigitChar (n : Nat) : Char :=
  if n < 10 then Char.ofNat (48 + n) else Char.ofNat (87 + n)

def natToBase36Aux : Nat → Nat → List Char → List Char
  | 0, _, acc => acc
  | fuel + 1, n, acc =>
    if n = 0 then acc else natToBase36Aux fuel (n / 36) (base36DigitChar (n % 36) :: acc)

/-- `Date.now().toString(36)` for a nonnegative integer timestamp.  The
first argument of the fuel-based digit loop only bounds the number of
digits; `n` itself is always enough fuel since `n / 36 < n`. -/
def natToBase36 (n : Nat) : String :=
  if n = 0 then String.mk [Char.ofNat 48] else String.mk (natToBase36Aux n n [])

/-- Model of `makeOperationId` (src/server.js lines 74-76):
`Date.now().toString(36) + Math.random().toString(36).slice(2)`.  The
current time in milliseconds and the random fractional digits (already
sliced past the leading `0.`) are explicit inputs. -/
def makeOperationId (timeMs : Nat) (randDigits : String) : String :=
  natToBase36 timeMs ++ randDigits

/-- Truthiness of the destructured `visualPrompt` field (`undefined` or the
empty string are falsy). -/
def strTruthy : Option String → Bool
  | none => false
  | some s => !(s == "")

/-- Request body of `POST /api/generate` after destructuring (`none` models
an absent field, so the declared defaults apply). -/
structure GenRequest where
  visualPrompt : Option String
  audioPrompt : Option String
  duration : Option String
  aspectRatio : Option String

/-- Outcome of the upstream `predictLongRunning` submission. -/
inductive SubmitResult where
  | transportError : SubmitResult
  | httpError : Nat → String → SubmitResult
  | ok : JsonVal → SubmitResult

inductive GenResponse where
  | notConfigured : GenResponse
  | missingPrompt : GenResponse
  | veoHttpError : Nat → String → GenResponse
  | missingName : GenResponse
  | started : String → GenResponse
  | genError : GenResponse

structure GenResult where
  store : OpStore
  response : GenResponse

def defaultDuration : String := "10 seconds"
def defaultAspectRatio : String := "16:9"

/-- One run of `POST /api/generate` (src/server.js lines 105-218): missing
credential is a 500, a falsy `visualPrompt` is a 400, a non-2xx or thrown
submission is a 500, a success body with a falsy `name` is a 500, and
otherwise a fresh id is minted from the clock and the random digits, the
record is stored in `processing` state with null `videoUrl`/`metadata`,
and the id is returned. -/
def generate (configured : Bool) (req : GenRequest) (submit : SubmitResult)
    (timeMs : Nat) (randDigits : String) (now : Nat) (store : OpStore) : GenResult :=
  if configured = false then ⟨store, GenResponse.notConfigured⟩
  else if strTruthy req.visualPrompt = false then ⟨store, GenResponse.missingPrompt⟩
  else
    match submit with
    | SubmitResult.httpError s t => ⟨store, GenResponse.veoHttpError s t⟩
    | SubmitResult.transportError => ⟨store, GenResponse.genError⟩
    | SubmitResult.ok data =>
      match JsonVal.getField data kName with
      | some nm =>
        if jsTruthy nm then
          ⟨storeSet store (makeOperationId timeMs randDigits)
            { id := makeOperationId timeMs randDigits
              status := OpStatus.processing
              visualPrompt := req.visualPrompt
              audioPrompt := req.audioPrompt
              duration := req.duration.getD defaultDuration
              aspectRatio := req.aspectRatio.getD defaultAspectRatio
              createdAt := now
              completedAt := none
              remoteName := nm
              videoUrl := none
              metadata := none },
            GenResponse.started (makeOperationId timeMs randDigits)⟩
        else ⟨store, GenResponse.missingName⟩
      | none => ⟨store, GenResponse.missingName⟩

/-! ## System traces

Store-mutating events: a generate request, a background monitor tick for
some operation, and a status read.  Remote outcomes and clock readings are
carried as event data, so a trace quantifies over every possible sequence
of poll results. -/

inductive Event where
  | gen : Bool → GenRequest → SubmitResult → Nat → String → Nat → Event
  | tick : String → Nat → Nat → PollResult → Event
  | readEv : String → Nat → PollResult → Event

def Event.isGen : Event → Bool
  | Event.gen _ _ _ _ _ _ => true
  | _ => false

def applyEvent (store : OpStore) : Event → OpStore
  | Event.gen c r s t rd now => (generate c r s t rd now store).store
  | Event.tick id a now p => (monitorTick id now store a p).store
  | Event.readEv id now p => (statusRead store id now p).store

def runEvents (store : OpStore) : List Event → OpStore
  | [] => store
  | e :: es => runEvents (applyEvent store e) es

/-! ## The polling loop

`monitorOperation` fires one tick per second while the interval is
scheduled; `runTicks` folds ticks over a list of poll outcomes, skipping
(and counting zero polls for) ticks once `clearInterval` has run. -/

structure MonState where
  store : OpStore
  attempts : Nat
  active : Bool

/-- One scheduled tick: runs the callback only while the interval is
active. Returns the new state and whether a remote poll was issued. -/
def stepTick (operationId : String) (now : Nat) (s : MonState) (p : PollResult) :
    MonState × Bool :=
  if s.active then
    let r := monitorTick operationId now s.store s.attempts p
    (⟨r.store, r.attempts, r.active⟩, r.polled)
  else (s, false)

/-- Fold of `stepTick` over a list of poll outcomes, counting the remote
polls actually issued. -/
def runTicks (operationId : String) (now : Nat) (s : MonState) :
    List PollResult → MonState × Nat
  | [] => (s, 0)
  | p :: ps =>
    let r := stepTick operationId now s p
    let rest := runTicks operationId now r.fst ps
    (rest.fst, (if r.snd then 1 else 0) + rest.snd)

/-! ## Stateless variant (src/unnamed/part_000): status read -/

def apiVideoPath : String := "/api/video/"

inductive SLStatusResponse where
  | notConfigured : SLStatusResponse
  | checkFailed : Nat → String → SLStatusResponse
  | checkError : SLStatusResponse
  | processing : String → SLStatusResponse
  | failed : JsonVal → SLStatusResponse
  | completed : String → String → Option JsonVal → SLStatusResponse

/-- One run of the stateless `GET /api/status/:id` (src/unnamed/part_000
lines 212-277): no store is consulted; the remote operation named by the
id is polled, a not-done body reports processing, a done body without an
extractable video URI is a 500 `failed` response carrying the raw JSON,
and a done body with a URI reports completed with a proxy video URL built
from the public backend base URL. -/
def slStatusRead (configured : Bool) (publicBase : String) (operationId : String)
    (p : PollResult) : SLStatusResponse :=
  if configured = false then SLStatusResponse.notConfigured
  else
    match p with
    | PollResult.httpError s t => SLStatusResponse.checkFailed s t
    | PollResult.transportError => SLStatusResponse.checkError
    | PollResult.ok json =>
      if jsTruthyOpt (JsonVal.getField json kDone) = false then
        SLStatusResponse.processing operationId
      else
        match extractVideoUriOpt (JsonVal.getField json kResponse) with
        | none => SLStatusResponse.failed json
        | some _ =>
          SLStatusResponse.completed operationId
            (publicBase ++ apiVideoPath ++ operationId)
            (JsonVal.getField json kResponse)

/-! ## URL-encoded operation ids (stateless variant)

The stateless variant issues `encodeURIComponent(operationName)` as the
client-visible id and recovers the name with `decodeURIComponent`.  Both
builtins are modelled over lists of Unicode scalar values (Lean `Char`),
matching well-formed JavaScript strings. -/

/-- Characters `encodeURIComponent` leaves unescaped:
`A-Z a-z 0-9 - _ . ! ~ * apostrophe ( )`. -/
def uriUnreserved (c : Char) : Bool :=
  (65 ≤ c.toNat && c.toNat ≤ 90) || (97 ≤ c.toNat && c.toNat ≤ 122) ||
  (48 ≤ c.toNat && c.toNat ≤ 57) ||
  (c.toNat == 45) || (c.toNat == 95) || (c.toNat == 46) || (c.toNat == 33) ||
  (c.toNat == 126) || (c.toNat == 42) || (c.toNat == 39) ||
  (c.toNat == 40) || (c.toNat == 41)

/-- UTF-8 bytes of a Unicode scalar value. -/
def utf8Bytes (n : Nat) : List Nat :=
  if n < 128 then [n]
  else if n < 2048 then [192 + n / 64, 128 + n % 64]
  else if n < 65536 then [224 + n / 4096, 128 + n / 64 % 64, 128 + n % 64]
  else [240 + n / 262144, 128 + n / 4096 % 64, 128 + n / 64 % 64, 128 + n % 64]

/-- Uppercase hexadecimal digit character. -/
def hexDigitChar (n : Nat) : Char :=
  if n < 10 then Char.ofNat (48 + n) else Char.ofNat (55 + n)

/-- Percent-escape of one byte: a percent sign and two hex digits. -/
def percentByte (b : Nat) : List Char :=
  [Char.ofNat 37, hexDigitChar (b / 16), hexDigitChar (b % 16)]

/-- Encoding of a single character: unreserved characters pass through,
everything else becomes the percent-escapes of its UTF-8 bytes. -/
def encodeChar (c : Char) : List Char :=
  if uriUnreserved c then [c] else (utf8Bytes c.toNat).flatMap percentByte

/-- Model of `encodeURIComponent` over the characters of a string. -/
def encodeURIComponentL : List Char → List Char
  | [] => []
  | c :: cs => encodeChar c ++ encodeURIComponentL cs

/-- Numeric value of a hexadecimal digit character (either case). -/
def hexVal (c : Char) : Option Nat :=
  if 48 ≤ c.toNat && c.toNat ≤ 57 then some (c.toNat - 48)
  else if 65 ≤ c.toNat && c.toNat ≤ 70 then some (c.toNat - 55)
  else if 97 ≤ c.toNat && c.toNat ≤ 102 then some (c.toNat - 87)
  else none

/-- Intermediate tokens of `decodeURIComponent`: a literal character or a
byte recovered from one percent-escape. -/
inductive UriTok where
  | chr : Char → UriTok
  | byte : Nat → UriTok

/-- First pass of `decodeURIComponent`: each percent-escape becomes a byte
token, every other character a literal token; a percent sign not followed
by two hex digits is a `URIError` (`none`). -/
def uriTokenize : List Char → Option (List UriTok)
  | [] => some []
  | c :: cs =>
    if c.toNat = 37 then
      match cs with
      | h1 :: h2 :: rest =>
        match hexVal h1, hexVal h2 with
        | some a, some b => (uriTokenize rest).map (fun ts => UriTok.byte (a * 16 + b) :: ts)
        | _, _ => none
      | _ => none
    else (uriTokenize cs).map (fun ts => UriTok.chr c :: ts)

/-- UTF-8 continuation byte. -/
def contByte (b : Nat) : Bool := 128 ≤ b && b < 192

/-- Continuation of a two-byte UTF-8 sequence led by `b`. -/
def uriTwo (b : Nat) : List UriTok → Option (Char × List UriTok)
  | UriTok.byte b1 :: ts1 =>
    if contByte b1 then some (Char.ofNat ((b - 192) * 64 + (b1 - 128)), ts1) else none
  | _ => none

/-- Continuation of a three-byte UTF-8 sequence led by `b`, rejecting
overlong encodings and surrogates. -/
def uriThree (b : Nat) : List UriTok → Option (Char × List UriTok)
  | UriTok.byte b1 :: UriTok.byte b2 :: ts2 =>
    if contByte b1 && contByte b2 then
      if 2048 ≤ (b - 224) * 4096 + (b1 - 128) * 64 + (b2 - 128) ∧
          ((b - 224) * 4096 + (b1 - 128) * 64 + (b2 - 128) < 55296 ∨
            57343 < (b - 224) * 4096 + (b1 - 128) * 64 + (b2 - 128)) then
        some (Char.ofNat ((b - 224) * 4096 + (b1 - 128) * 64 + (b2 - 128)), ts2)
      else none
    else none
  | _ => none

/-- Continuation of a four-byte UTF-8 sequence led by `b`, rejecting
overlong encodings and values beyond the last scalar value. -/
def uriFour (b : Nat) : List UriTok → Option (Char × List UriTok)
  | UriTok.byte b1 :: UriTok.byte b2 :: UriTok.byte b3 :: ts3 =>
    if contByte b1 && contByte b2 && contByte b3 then
      if 65536 ≤ (b - 240) * 262144 + (b1 - 128) * 4096 + (b2 - 128) * 64 + (b3 - 128) ∧
          (b - 240) * 262144 + (b1 - 128) * 4096 + (b2 - 128) * 64 + (b3 - 128) < 1114112 then
        some (Char.ofNat
          ((b - 240) * 262144 + (b1 - 128) * 4096 + (b2 - 128) * 64 + (b3 - 128)), ts3)
      else none
    else none
  | _ => none

/-- Decode one character from the token stream: a literal token stands for
itself, a byte token starts a UTF-8 sequence; stray continuation bytes,
truncated sequences, overlong encodings, surrogates and out-of-range
values are `URIError`s (`none`). -/
def uriDecodeOne : List UriTok → Option (Char × List UriTok)
  | [] => none
  | UriTok.chr c :: ts => some (c, ts)
  | UriTok.byte b :: ts =>
    if b < 128 then some (Char.ofNat b, ts)
    else if b < 194 then none
    else if b < 224 then uriTwo b ts
    else if b < 240 then uriThree b ts
    else if b < 245 then uriFour b ts
    else none

/-- Second pass of `decodeURIComponent`: decode characters one at a time
until the token stream is exhausted.  The recursion is fuel-based: each
decoded character consumes at least one token, so `ts.length` steps always
suffice (running out of fuel yields `none`, which the wrapper below never
triggers). -/
def uriDecodeToksB : Nat → List UriTok → Option (List Char)
  | _, [] => some []
  | 0, _ :: _ => none
  | n + 1, t :: ts =>
    match uriDecodeOne (t :: ts) with
    | none => none
    | some (c, rest) => (uriDecodeToksB n rest).map (fun l => c :: l)

def uriDecodeToks (ts : List UriTok) : Option (List Char) :=
  uriDecodeToksB ts.length ts

/-- Model of `decodeURIComponent`; `none` models a thrown `URIError`. -/
def decodeURIComponentL (l : List Char) : Option (List Char) :=
  (uriTokenize l).bind uriDecodeToks

/-- Issued id in the stateless variant (src/unnamed/part_000 line 193):
`const operationId = encodeURIComponent(operationName)`. -/
def slIssueId (operationName : List Char) : List Char :=
  encodeURIComponentL operationName

/-- Name recovery in the stateless status and video handlers
(src/unnamed/part_000 lines 222 and 289):
`const operationName = decodeURIComponent(operationId)`. -/
def slRecoverName (operationId : List Char) : Option (List Char) :=
  decodeURIComponentL operationId

/-- Token sequence produced for one character by the encoder, as seen by
the decoder after tokenization. -/
def charToks (c : Char) : List UriTok :=
  if uriUnreserved c then [UriTok.chr c] else (utf8Bytes c.toNat).map UriTok.byte

/-! ## Concrete fixtures used by witnesses and counterexamples -/

def kX : String := "X"
def kY : String := "Y"
def pVisualA : String := "a cat"
def pVisualB : String := "a dog"
def remoteOpName : String := "models/veo-3.1-generate-preview/operations/abc123"
def rTestRand : String := "zz"
def opIdA : String := "a"
def errText : String := "server error"
def pubBase : String := "https://veo-backend-miym.onrender.com"

/-- The canonical result shape with uri `X`. -/
def canonicalBody : JsonVal :=
  JsonVal.obj [(kGenerateVideoResponse, JsonVal.obj [(kGeneratedSamples,
    JsonVal.arr [JsonVal.obj [(kVideo, JsonVal.obj [(kUri, JsonVal.str kX)])]])])]

/-- The alternate result shape with uri `X`. -/
def altBody : JsonVal :=
  JsonVal.obj [(kResult, JsonVal.obj [(kGeneratedVideos,
    JsonVal.arr [JsonVal.obj [(kUri, JsonVal.str kX)]])])]

/-- A response carrying both the canonical shape (uri `X`) and the
alternate shape (uri `Y`). -/
def bothBody : JsonVal :=
  JsonVal.obj [(kGenerateVideoResponse, JsonVal.obj [(kGeneratedSamples,
    JsonVal.arr [JsonVal.obj [(kVideo, JsonVal.obj [(kUri, JsonVal.str kX)])]])]),
    (kResult, JsonVal.obj [(kGeneratedVideos,
    JsonVal.arr [JsonVal.obj [(kUri, JsonVal.str kY)]])])]

/-- A poll body reporting `done: true` with no extractable video URI. -/
def doneNoUriBody : JsonVal := JsonVal.obj [(kDone, JsonVal.bool true)]

/-- A poll body reporting `done: false`. -/
def notDoneBody : JsonVal := JsonVal.obj [(kDone, JsonVal.bool false)]

/-- A poll body reporting `done: true` with the canonical result shape. -/
def doneCanonicalBody : JsonVal :=
  JsonVal.obj [(kDone, JsonVal.bool true), (kResponse, canonicalBody)]

/-- A successful submission body carrying an operation name. -/
def okNameData : JsonVal := JsonVal.obj [(kName, JsonVal.str remoteOpName)]

/-- A processing operation record. -/
def opA : Operation :=
  { id := opIdA
    status := OpStatus.processing
    visualPrompt := some pVisualA
    audioPrompt := none
    duration := defaultDuration
    aspectRatio := defaultAspectRatio
    createdAt := 0
    completedAt := none
    remoteName := JsonVal.str remoteOpName
    videoUrl := none
    metadata := none }

/-- A completed operation record with a cached video URL. -/
def opDone : Operation :=
  { opA with
    status := OpStatus.completed
    videoUrl := some (JsonVal.str kX)
    metadata := some canonicalBody
    completedAt := some 3 }

def storeA : OpStore := [(opIdA, opA)]
def storeDone : OpStore := [(opIdA, opDone)]

def testReq : GenRequest :=
  { visualPrompt := some pVisualA, audioPrompt := none, duration := none, aspectRatio := none }

def testReqB : GenRequest :=
  { visualPrompt := some pVisualB, audioPrompt := none, duration := none, aspectRatio := none }

def genIdA : String := makeOperationId 0 rTestRand
def dupId : String := makeOperationId 5 rTestRand

def genEvA : Event := Event.gen true testReq (SubmitResult.ok okNameData) 0 rTestRand 1
def tickDoneNoUri : Event := Event.tick genIdA 0 5 (PollResult.ok doneNoUriBody)

def c2Events : List Event := [genEvA, tickDoneNoUri]

/-- Store reached from startup by one creation and one done-without-URI
monitor tick: its operation is completed with a null videoUrl. -/
def c7Store : OpStore := runEvents [] c2Events

def c1Events : List Event :=
  [Event.tick opIdA 0 9 (PollResult.ok notDoneBody),
   Event.readEv opIdA 9 (PollResult.ok doneNoUriBody)]

def genResA : GenResult := generate true testReq (SubmitResult.ok okNameData) 5 rTestRand 5 []
def genResB : GenResult :=
  generate true testReqB (SubmitResult.ok okNameData) 5 rTestRand 6 genResA.store

def notDonePolls : List PollResult := List.replicate 120 (PollResult.ok notDoneBody)

/-! ## Lemmas: operation store -/

theorem storeGet_storeSet_self (m : OpStore) (k : String) (v : Operation) :
    storeGet (storeSet m k v) k = some v := by
  induction m with
  | nil => simp [storeSet, storeGet]
  | cons hd tl ih =>
    obtain ⟨k', v'⟩ := hd
    by_cases h : k' = k
    · simp [storeSet, storeGet, h]
    · simp [storeSet, storeGet, h, ih]

theorem storeGet_storeSet_ne (m : OpStore) (k k' : String) (v : Operation)
    (h : k' ≠ k) : storeGet (storeSet m k v) k' = storeGet m k' := by
  have hk : ¬ k = k' := fun hh => h hh.symm
  induction m with
  | nil => simp [storeSet, storeGet, hk]
  | cons hd tl ih =>
    obtain ⟨k0, v0⟩ := hd
    by_cases h0 : k0 = k
    · subst h0
      simp [storeSet, storeGet, hk]
    · simp only [storeSet, if_neg h0, storeGet]
      by_cases h1 : k0 = k'
      · simp [h1]
      · simp [h1, ih]

/-! ## Lemmas: URL-encoding round trip -/

theorem char_toNat_valid (c : Char) :
    c.toNat < 55296 ∨ (57343 < c.toNat ∧ c.toNat < 1114112) := by
  rcases c.valid with h | ⟨h1, h2⟩
  · exact Or.inl h
  · exact Or.inr ⟨h1, h2⟩

theorem char_toNat_lt (c : Char) : c.toNat < 1114112 := by
  rcases char_toNat_valid c with h | ⟨_, h⟩
  · omega
  · exact h

theorem hexVal_hexDigitChar (d : Nat) (h : d < 16) :
    hexVal (hexDigitChar d) = some d := by
  interval_cases d <;> decide

theorem uriUnreserved_ne_percent (c : Char) (h : uriUnreserved c = true) :
    ¬ c.toNat = 37 := by
  unfold uriUnreserved at h
  simp only [Bool.or_eq_true, Bool.and_eq_true, decide_eq_true_eq, beq_iff_eq] at h
  omega

theorem utf8Bytes_lt (n : Nat) (h : n < 1114112) : ∀ b ∈ utf8Bytes n, b < 256 := by
  unfold utf8Bytes
  split_ifs <;> simp <;> omega

theorem utf8Bytes_ne_nil (n : Nat) : utf8Bytes n ≠ [] := by
  unfold utf8Bytes
  split_ifs <;> simp

theorem charToks_ne_nil (c : Char) : charToks c ≠ [] := by
  unfold charToks
  split_ifs
  · simp
  · simp [utf8Bytes_ne_nil]

theorem contByte_eq_true (b : Nat) (h1 : 128 ≤ b) (h2 : b < 192) : contByte b = true := by
  unfold contByte
  simp only [Bool.and_eq_true, decide_eq_true_eq]
  omega

theorem uriTokenize_percentBytes (bs : List Nat) (r : List Char)
    (hb : ∀ b ∈ bs, b < 256) :
    uriTokenize (bs.flatMap percentByte ++ r) =
      (uriTokenize r).map (fun ts => bs.map UriTok.byte ++ ts) := by
  induction bs with
  | nil =>
    simp only [List.flatMap_nil, List.nil_append, List.map_nil]
    cases uriTokenize r <;> rfl
  | cons b bs ih =>
    have hb0 : b < 256 := hb b (List.mem_cons_self b bs)
    have hbs : ∀ x ∈ bs, x < 256 := fun x hx => hb x (List.mem_cons_of_mem b hx)
    have hd : b / 16 < 16 := by omega
    have hm : b % 16 < 16 := by omega
    have h37 : (Char.ofNat 37).toNat = 37 := by decide
    have hvald : b / 16 * 16 + b % 16 = b := by omega
    simp only [List.flatMap_cons, List.append_assoc]
    show uriTokenize (Char.ofNat 37 :: hexDigitChar (b / 16) :: hexDigitChar (b % 16) ::
      (bs.flatMap percentByte ++ r)) = _
    simp only [uriTokenize, h37, if_true, hexVal_hexDigitChar _ hd, hexVal_hexDigitChar _ hm,
      ih hbs, hvald, List.map_cons]
    cases uriTokenize r <;> rfl

theorem uriTokenize_plain (c : Char) (r : List Char) (h37 : ¬ c.toNat = 37) :
    uriTokenize (c :: r) = (uriTokenize r).map (fun ts => UriTok.chr c :: ts) := by
  rcases r with _ | ⟨c1, _ | ⟨c2, rest⟩⟩ <;>
    · simp only [uriTokenize]
      rw [if_neg h37]

theorem uriTokenize_encodeChar (c : Char) (r : List Char) :
    uriTokenize (encodeChar c ++ r) = (uriTokenize r).map (fun ts => charToks c ++ ts) := by
  by_cases hu : uriUnreserved c = true
  · have h37 : ¬ c.toNat = 37 := uriUnreserved_ne_percent c hu
    have he : encodeChar c = [c] := by
      unfold encodeChar
      rw [if_pos hu]
    have ht : charToks c = [UriTok.chr c] := by
      unfold charToks
      rw [if_pos hu]
    rw [he, ht, List.singleton_append, uriTokenize_plain c r h37]
    cases uriTokenize r <;> rfl
  · have he : encodeChar c = (utf8Bytes c.toNat).flatMap percentByte := by
      unfold encodeChar
      rw [if_neg hu]
    have ht : charToks c = (utf8Bytes c.toNat).map UriTok.byte := by
      unfold charToks
      rw [if_neg hu]
    rw [he, ht]
    exact uriTokenize_percentBytes _ r (utf8Bytes_lt c.toNat (char_toNat_lt c))

theorem uriTokenize_encode (l r : List Char) :
    uriTokenize (encodeURIComponentL l ++ r) =
      (uriTokenize r).map (fun ts => l.flatMap charToks ++ ts) := by
  induction l with
  | nil =>
    simp only [encodeURIComponentL, List.nil_append, List.flatMap_nil]
    cases uriTokenize r <;> rfl
  | cons c cs ih =>
    simp only [encodeURIComponentL, List.append_assoc, List.flatMap_cons]
    rw [uriTokenize_encodeChar, ih]
    cases uriTokenize r
    · rfl
    · simp [List.append_assoc]
theorem uriDecodeOne_charToks (c : Char) (ts : List UriTok) :
    uriDecodeOne (charToks c ++ ts) = some (c, ts) := by
  by_cases hu : uriUnreserved c = true
  · simp [charToks, hu, uriDecodeOne]
  · have hv := char_toNat_valid c
    by_cases h1 : c.toNat < 128
    · simp [charToks, hu, utf8Bytes, h1, uriDecodeOne]
    · by_cases h2 : c.toNat < 2048
      · have e1 : ¬ (192 + c.toNat / 64 < 128) := by omega
        have e2 : ¬ (192 + c.toNat / 64 < 194) := by omega
        have e3 : 192 + c.toNat / 64 < 224 := by omega
        have ec : contByte (128 + c.toNat % 64) = true :=
          contByte_eq_true _ (by omega) (by omega)
        have ha : c.toNat / 64 * 64 + c.toNat % 64 = c.toNat := by omega
        simp [charToks, hu, utf8Bytes, h1, h2, uriDecodeOne, uriTwo, e1, e2, e3, ec, ha]
      · by_cases h3 : c.toNat < 65536
        · have e1 : ¬ (224 + c.toNat / 4096 < 128) := by omega
          have e2 : ¬ (224 + c.toNat / 4096 < 194) := by omega
          have e3 : ¬ (224 + c.toNat / 4096 < 224) := by omega
          have e4 : 224 + c.toNat / 4096 < 240 := by omega
          have ec1 : contByte (128 + c.toNat / 64 % 64) = true :=
            contByte_eq_true _ (by omega) (by omega)
          have ec2 : contByte (128 + c.toNat % 64) = true :=
            contByte_eq_true _ (by omega) (by omega)
          have ha : c.toNat / 4096 * 4096 + c.toNat / 64 % 64 * 64 + c.toNat % 64 = c.toNat := by
            omega
          have hval : 2048 ≤ c.toNat ∧ (c.toNat < 55296 ∨ 57343 < c.toNat) := by
            constructor
            · omega
            · rcases hv with h | ⟨h, _⟩
              · exact Or.inl h
              · exact Or.inr h
          simp [charToks, hu, utf8Bytes, h1, h2, h3, uriDecodeOne, uriThree, e1, e2, e3, e4,
            ec1, ec2, ha, hval]
        · have hlt : c.toNat < 1114112 := char_toNat_lt c
          have e1 : ¬ (240 + c.toNat / 262144 < 128) := by omega
          have e2 : ¬ (240 + c.toNat / 262144 < 194) := by omega
          have e3 : ¬ (240 + c.toNat / 262144 < 224) := by omega
          have e4 : ¬ (240 + c.toNat / 262144 < 240) := by omega
          have e5 : 240 + c.toNat / 262144 < 245 := by omega
          have ec1 : contByte (128 + c.toNat / 4096 % 64) = true :=
            contByte_eq_true _ (by omega) (by omega)
          have ec2 : contByte (128 + c.toNat / 64 % 64) = true :=
            contByte_eq_true _ (by omega) (by omega)
          have ec3 : contByte (128 + c.toNat % 64) = true :=
            contByte_eq_true _ (by omega) (by omega)
          have ha : c.toNat / 262144 * 262144 + c.toNat / 4096 % 64 * 4096 +
              c.toNat / 64 % 64 * 64 + c.toNat % 64 = c.toNat := by
            omega
          have hval : 65536 ≤ c.toNat ∧ c.toNat < 1114112 := ⟨by omega, hlt⟩
          simp [charToks, hu, utf8Bytes, h1, h2, h3, uriDecodeOne, uriFour, e1, e2, e3, e4, e5,
            ec1, ec2, ec3, ha, hval]

theorem uriTwo_length {b : Nat} {ts : List UriTok} {c : Char} {rest : List UriTok}
    (h : uriTwo b ts = some (c, rest)) : rest.length < ts.length := by
  match ts with
  | [] => simp [uriTwo] at h
  | UriTok.chr c1 :: ts1 => simp [uriTwo] at h
  | UriTok.byte b1 :: ts1 =>
    by_cases hc : contByte b1 = true
    · simp only [uriTwo, hc, if_true, Option.some.injEq, Prod.mk.injEq] at h
      rw [← h.2]
      simp
    · simp [uriTwo, hc] at h

theorem uriThree_length {b : Nat} {ts : List UriTok} {c : Char} {rest : List UriTok}
    (h : uriThree b ts = some (c, rest)) : rest.length < ts.length := by
  match ts with
  | [] => simp [uriThree] at h
  | UriTok.chr c1 :: ts1 => simp [uriThree] at h
  | UriTok.byte b1 :: [] => simp [uriThree] at h
  | UriTok.byte b1 :: UriTok.chr c2 :: ts2 => simp [uriThree] at h
  | UriTok.byte b1 :: UriTok.byte b2 :: ts2 =>
    simp only [uriThree] at h
    split_ifs at h
    simp only [Option.some.injEq, Prod.mk.injEq] at h
    rw [← h.2]
    simp
    omega

theorem uriFour_length {b : Nat} {ts : List UriTok} {c : Char} {rest : List UriTok}
    (h : uriFour b ts = some (c, rest)) : rest.length < ts.length := by
  match ts with
  | [] => simp [uriFour] at h
  | UriTok.chr c1 :: ts1 => simp [uriFour] at h
  | UriTok.byte b1 :: [] => simp [uriFour] at h
  | UriTok.byte b1 :: UriTok.chr c2 :: ts2 => simp [uriFour] at h
  | UriTok.byte b1 :: UriTok.byte b2 :: [] => simp [uriFour] at h
  | UriTok.byte b1 :: UriTok.byte b2 :: UriTok.chr c3 :: ts3 => simp [uriFour] at h
  | UriTok.byte b1 :: UriTok.byte b2 :: UriTok.byte b3 :: ts3 =>
    simp only [uriFour] at h
    split_ifs at h
    simp only [Option.some.injEq, Prod.mk.injEq] at h
    rw [← h.2]
    simp
    omega

theorem uriDecodeOne_length {ts : List UriTok} {c : Char} {rest : List UriTok}
    (h : uriDecodeOne ts = some (c, rest)) : rest.length < ts.length := by
  match ts with
  | [] => simp [uriDecodeOne] at h
  | UriTok.chr c1 :: ts1 =>
    simp only [uriDecodeOne, Option.some.injEq, Prod.mk.injEq] at h
    rw [← h.2]
    simp
  | UriTok.byte b :: ts1 =>
    simp only [uriDecodeOne] at h
    split_ifs at h
    · simp only [Option.some.injEq, Prod.mk.injEq] at h
      rw [← h.2]
      simp
    · have := uriTwo_length h
      simp only [List.length_cons]
      omega
    · have := uriThree_length h
      simp only [List.length_cons]
      omega
    · have := uriFour_length h
      simp only [List.length_cons]
      omega

theorem uriDecodeToksB_nil (n : Nat) : uriDecodeToksB n [] = some [] := by
  cases n <;> rfl

theorem uriDecodeToksB_cons (n : Nat) (t : UriTok) (ts : List UriTok) :
    uriDecodeToksB (n + 1) (t :: ts) =
      match uriDecodeOne (t :: ts) with
      | none => none
      | some (c, rest) => (uriDecodeToksB n rest).map (fun l => c :: l) := rfl

theorem uriDecodeToksB_fuel (n : Nat) : ∀ (m : Nat) (ts : List UriTok),
    ts.length ≤ n → ts.length ≤ m → uriDecodeToksB n ts = uriDecodeToksB m ts := by
  induction n with
  | zero =>
    intro m ts hn _
    have hts : ts = [] := List.length_eq_zero.mp (Nat.le_zero.mp hn)
    subst hts
    rw [uriDecodeToksB_nil, uriDecodeToksB_nil]
  | succ n ih =>
    intro m ts hn hm
    cases ts with
    | nil => rw [uriDecodeToksB_nil, uriDecodeToksB_nil]
    | cons t ts2 =>
      cases m with
      | zero => simp at hm
      | succ m2 =>
        rw [uriDecodeToksB_cons, uriDecodeToksB_cons]
        rcases h : uriDecodeOne (t :: ts2) with _ | ⟨c, rest⟩
        · simp [h]
        · have hlt := uriDecodeOne_length h
          simp only [List.length_cons] at hn hm hlt
          simp only [h]
          rw [ih m2 rest (by omega) (by omega)]

theorem uriDecodeToksB_charToks (n : Nat) (c : Char) (ts : List UriTok) :
    uriDecodeToksB (n + 1) (charToks c ++ ts) =
      (uriDecodeToksB n ts).map (fun l => c :: l) := by
  have hone := uriDecodeOne_charToks c ts
  have hne := charToks_ne_nil c
  revert hone hne
  generalize charToks c = l
  intro hone hne
  cases l with
  | nil => exact absurd rfl hne
  | cons t l2 =>
    rw [List.cons_append] at hone ⊢
    rw [uriDecodeToksB_cons, hone]

theorem uriDecodeToksB_flat (l : List Char) (n : Nat) (ts : List UriTok) :
    uriDecodeToksB (l.length + n) (l.flatMap charToks ++ ts) =
      (uriDecodeToksB n ts).map (fun acc => l ++ acc) := by
  induction l with
  | nil =>
    simp only [List.flatMap_nil, List.nil_append, List.length_nil, Nat.zero_add]
    cases uriDecodeToksB n ts <;> rfl
  | cons c cs ih =>
    simp only [List.flatMap_cons, List.append_assoc, List.length_cons]
    have hfe : cs.length + 1 + n = (cs.length + n) + 1 := by omega
    rw [hfe, uriDecodeToksB_charToks, ih]
    cases uriDecodeToksB n ts <;> rfl

theorem decodeURIComponentL_encode (l : List Char) :
    decodeURIComponentL (encodeURIComponentL l) = some l := by
  unfold decodeURIComponentL
  have h := uriTokenize_encode l []
  rw [List.append_nil] at h
  rw [h]
  show uriDecodeToks (l.flatMap charToks ++ []) = some l
  rw [List.append_nil]
  unfold uriDecodeToks
  rw [uriDecodeToksB_fuel (l.flatMap charToks).length (l.length + (l.flatMap charToks).length)
    (l.flatMap charToks) le_rfl (Nat.le_add_left _ _)]
  have h2 := uriDecodeToksB_flat l (l.flatMap charToks).length []
  rw [List.append_nil] at h2
  rw [h2, uriDecodeToksB_nil]
  show some (l ++ []) = some l
  rw [List.append_nil]

/-! ## Lemmas: preservation of terminal and processing states -/

theorem tick_preserves_completed (store : OpStore) (tid id : String) (a now : Nat)
    (p : PollResult) (op : Operation) (hget : storeGet store id = some op)
    (hterm : op.status = OpStatus.completed) :
    ∃ op2, storeGet (monitorTick tid now store a p).store id = some op2 ∧
      op2.status = OpStatus.completed := by
  unfold monitorTick
  rcases hst : storeGet store tid with _ | stored
  · exact ⟨op, hget, hterm⟩
  · simp only [hst]
    by_cases hc : stored.status = OpStatus.completed
    · simp only [if_pos hc]
      exact ⟨op, hget, hterm⟩
    · simp only [if_neg hc]
      cases p with
      | httpError s t => exact ⟨op, hget, hterm⟩
      | transportError => exact ⟨op, hget, hterm⟩
      | ok json =>
        by_cases hd : jsTruthyOpt (JsonVal.getField json kDone) = true
        · simp only [if_pos hd]
          by_cases hid : tid = id
          · subst hid
            rw [hget] at hst
            injection hst with he
            exact absurd (he ▸ hterm) hc
          · refine ⟨op, ?_, hterm⟩
            rw [storeGet_storeSet_ne store tid id _ (fun hh => hid hh.symm)]
            exact hget
        · simp only [if_neg hd]
          exact ⟨op, hget, hterm⟩

theorem read_preserves_completed (store : OpStore) (rid id : String) (now : Nat)
    (p : PollResult) (op : Operation) (hget : storeGet store id = some op)
    (hterm : op.status = OpStatus.completed) :
    ∃ op2, storeGet (statusRead store rid now p).store id = some op2 ∧
      op2.status = OpStatus.completed := by
  unfold statusRead
  rcases hst : storeGet store rid with _ | stored
  · exact ⟨op, hget, hterm⟩
  · simp only [hst]
    by_cases hc : stored.status = OpStatus.completed ∧ jsTruthyOpt stored.videoUrl = true
    · simp only [if_pos hc]
      exact ⟨op, hget, hterm⟩
    · simp only [if_neg hc]
      cases p with
      | httpError s t => exact ⟨op, hget, hterm⟩
      | transportError => exact ⟨op, hget, hterm⟩
      | ok json =>
        by_cases hd : jsTruthyOpt (JsonVal.getField json kDone) = true
        · simp only [if_pos hd]
          by_cases hid : rid = id
          · subst hid
            exact ⟨_, storeGet_storeSet_self store rid _, rfl⟩
          · refine ⟨op, ?_, hterm⟩
            rw [storeGet_storeSet_ne store rid id _ (fun hh => hid hh.symm)]
            exact hget
        · simp only [if_neg hd]
          exact ⟨op, hget, hterm⟩

theorem storeInv_set (store : OpStore) (k : String) (v : Operation)
    (hinv : ∀ id op, storeGet store id = some op →
      op.status = OpStatus.processing → op.videoUrl = none)
    (hv : v.status = OpStatus.processing → v.videoUrl = none) :
    ∀ id op, storeGet (storeSet store k v) id = some op →
      op.status = OpStatus.processing → op.videoUrl = none := by
  intro id op hget hp
  by_cases hid : id = k
  · subst hid
    rw [storeGet_storeSet_self] at hget
    injection hget with he
    subst he
    exact hv hp
  · rw [storeGet_storeSet_ne store k id v hid] at hget
    exact hinv id op hget hp

theorem storeInv_gen (configured : Bool) (req : GenRequest) (submit : SubmitResult)
    (timeMs : Nat) (randDigits : String) (now : Nat) (store : OpStore)
    (hinv : ∀ id op, storeGet store id = some op →
      op.status = OpStatus.processing → op.videoUrl = none) :
    ∀ id op,
      storeGet (generate configured req submit timeMs randDigits now store).store id = some op →
      op.status = OpStatus.processing → op.videoUrl = none := by
  unfold generate
  by_cases h1 : configured = false
  · simp only [if_pos h1]
    exact hinv
  · simp only [if_neg h1]
    by_cases h2 : strTruthy req.visualPrompt = false
    · simp only [if_pos h2]
      exact hinv
    · simp only [if_neg h2]
      cases submit with
      | httpError s t => exact hinv
      | transportError => exact hinv
      | ok data =>
        rcases hn : JsonVal.getField data kName with _ | nm
        · simp only [hn]
          exact hinv
        · simp only [hn]
          by_cases ht : jsTruthy nm = true
          · simp only [if_pos ht]
            exact storeInv_set store _ _ hinv (fun _ => rfl)
          · simp only [if_neg ht]
            exact hinv

theorem storeInv_tick (tid : String) (a now : Nat) (p : PollResult) (store : OpStore)
    (hinv : ∀ id op, storeGet store id = some op →
      op.status = OpStatus.processing → op.videoUrl = none) :
    ∀ id op, storeGet (monitorTick tid now store a p).store id = some op →
      op.status = OpStatus.processing → op.videoUrl = none := by
  unfold monitorTick
  rcases hst : storeGet store tid with _ | stored
  · exact hinv
  · simp only [hst]
    by_cases hc : stored.status = OpStatus.completed
    · simp only [if_pos hc]
      exact hinv
    · simp only [if_neg hc]
      cases p with
      | httpError s t => exact hinv
      | transportError => exact hinv
      | ok json =>
        by_cases hd : jsTruthyOpt (JsonVal.getField json kDone) = true
        · simp only [if_pos hd]
          refine storeInv_set store _ _ hinv ?_
          intro hps
          cases hps
        · simp only [if_neg hd]
          exact hinv

theorem storeInv_read (rid : String) (now : Nat) (p : PollResult) (store : OpStore)
    (hinv : ∀ id op, storeGet store id = some op →
      op.status = OpStatus.processing → op.videoUrl = none) :
    ∀ id op, storeGet (statusRead store rid now p).store id = some op →
      op.status = OpStatus.processing → op.videoUrl = none := by
  unfold statusRead
  rcases hst : storeGet store rid with _ | stored
  · exact hinv
  · simp only [hst]
    by_cases hc : stored.status = OpStatus.completed ∧ jsTruthyOpt stored.videoUrl = true
    · simp only [if_pos hc]
      exact hinv
    · simp only [if_neg hc]
      cases p with
      | httpError s t => exact hinv
      | transportError => exact hinv
      | ok json =>
        by_cases hd : jsTruthyOpt (JsonVal.getField json kDone) = true
        · simp only [if_pos hd]
          refine storeInv_set store _ _ hinv ?_
          intro hps
          cases hps
        · simp only [if_neg hd]
          exact hinv

theorem storeInv_run (es : List Event) (m : OpStore)
    (hinv : ∀ id op, storeGet m id = some op →
      op.status = OpStatus.processing → op.videoUrl = none) :
    ∀ id op, storeGet (runEvents m es) id = some op →
      op.status = OpStatus.processing → op.videoUrl = none := by
  induction es generalizing m with
  | nil => exact hinv
  | cons e es ih =>
    refine ih (applyEvent m e) ?_
    cases e with
    | gen c r s t rd now => exact storeInv_gen c r s t rd now m hinv
    | tick tid a now p => exact storeInv_tick tid a now p m hinv
    | readEv rid now p => exact storeInv_read rid now p m hinv


/-! ## Lemmas: the polling loop -/

theorem monitorTick_notDone (id : String) (now : Nat) (m : OpStore) (a : Nat) (op : Operation)
    (h1 : storeGet m id = some op) (h2 : op.status = OpStatus.processing) :
    monitorTick id now m a (PollResult.ok notDoneBody) =
      ⟨m, a + 1, decide (a + 1 < maxAttempts), true, false⟩ := by
  have hc : ¬ op.status = OpStatus.completed := by
    rw [h2]
    intro h
    cases h
  have hd : ¬ jsTruthyOpt (JsonVal.getField notDoneBody kDone) = true := by decide
  unfold monitorTick
  simp only [h1, if_neg hc, if_neg hd]

theorem stepTick_active (id : String) (now : Nat) (m : OpStore) (a : Nat) (p : PollResult) :
    stepTick id now ⟨m, a, true⟩ p =
      (⟨(monitorTick id now m a p).store, (monitorTick id now m a p).attempts,
        (monitorTick id now m a p).active⟩, (monitorTick id now m a p).polled) := rfl

theorem stepTick_inactive (id : String) (now : Nat) (m : OpStore) (a : Nat) (p : PollResult) :
    stepTick id now ⟨m, a, false⟩ p = (⟨m, a, false⟩, false) := rfl

theorem runTicks_nil (id : String) (now : Nat) (s : MonState) :
    runTicks id now s [] = (s, 0) := rfl

theorem runTicks_cons (id : String) (now : Nat) (s : MonState) (p : PollResult)
    (ps : List PollResult) :
    runTicks id now s (p :: ps) =
      ((runTicks id now (stepTick id now s p).fst ps).fst,
        (if (stepTick id now s p).snd then 1 else 0) +
          (runTicks id now (stepTick id now s p).fst ps).snd) := rfl

theorem runTicks_inactive (id : String) (now : Nat) (m : OpStore) (a : Nat)
    (ps : List PollResult) :
    runTicks id now ⟨m, a, false⟩ ps = (⟨m, a, false⟩, 0) := by
  induction ps with
  | nil => rfl
  | cons p ps ih =>
    rw [runTicks_cons, stepTick_inactive, ih]
    rfl

theorem runTicks_notDone (k : Nat) : ∀ (m : OpStore) (id : String) (op : Operation)
    (a now : Nat), storeGet m id = some op → op.status = OpStatus.processing →
    a + k ≤ maxAttempts → 1 ≤ k →
    runTicks id now ⟨m, a, true⟩ (List.replicate k (PollResult.ok notDoneBody)) =
      (⟨m, a + k, decide (a + k < maxAttempts)⟩, k) := by
  induction k with
  | zero =>
    intro m id op a now _ _ _ hk
    cases hk
  | succ k ih =>
    intro m id op a now h1 h2 hcap _
    rw [List.replicate_succ, runTicks_cons, stepTick_active,
      monitorTick_notDone id now m a op h1 h2]
    dsimp only
    by_cases hk0 : k = 0
    · subst hk0
      rw [show List.replicate 0 (PollResult.ok notDoneBody) = [] from rfl, runTicks_nil]
      rfl
    · have hlt : a + 1 < maxAttempts := by
        unfold maxAttempts at hcap ⊢
        omega
      have hcap2 : a + 1 + k ≤ maxAttempts := by
        unfold maxAttempts at hcap ⊢
        omega
      rw [decide_eq_true hlt]
      rw [ih m id op (a + 1) now h1 h2 hcap2 (by omega)]
      have he : a + 1 + k = a + (k + 1) := by omega
      rw [he]
      show ((⟨m, a + (k + 1), decide (a + (k + 1) < maxAttempts)⟩ : MonState), 1 + k) =
        ((⟨m, a + (k + 1), decide (a + (k + 1) < maxAttempts)⟩ : MonState), k + 1)
      rw [Nat.add_comm 1 k]

/-! ## Claim theorems -/

/-- Claim C1: once an operation's stored status has reached the terminal
state (the only terminal state the code ever stores is `completed`), no
subsequent background monitor tick or opportunistic on-read poll — under
any sequence of poll results — changes it back to `processing` or to any
other status; transitions are monotonic. -/
theorem c1_status_terminal_monotonic (store : OpStore) (es : List Event) (id : String)
    (op : Operation) (hget : storeGet store id = some op)
    (hterm : op.status = OpStatus.completed)
    (hpoll : ∀ e ∈ es, Event.isGen e = false) :
    ∃ op2, storeGet (runEvents store es) id = some op2 ∧
      op2.status = OpStatus.completed := by
  induction es generalizing store op with
  | nil => exact ⟨op, hget, hterm⟩
  | cons e es ih =>
    have he : Event.isGen e = false := hpoll e (List.mem_cons_self e es)
    have hes : ∀ e2 ∈ es, Event.isGen e2 = false :=
      fun e2 h2 => hpoll e2 (List.mem_cons_of_mem e h2)
    cases e with
    | gen c r s t rd now => simp [Event.isGen] at he
    | tick tid a now p =>
      obtain ⟨op2, hg2, ht2⟩ := tick_preserves_completed store tid id a now p op hget hterm
      exact ih _ _ hg2 ht2 hes
    | readEv rid now p =>
      obtain ⟨op2, hg2, ht2⟩ := read_preserves_completed store rid id now p op hget hterm
      exact ih _ _ hg2 ht2 hes

/-- Witness for C1 at a concrete completed operation, one monitor tick and
one status read. -/
theorem c1_status_terminal_monotonic_witness :
    storeGet storeDone opIdA = some opDone ∧
    opDone.status = OpStatus.completed ∧
    (∀ e ∈ c1Events, Event.isGen e = false) ∧
    (∃ op2, storeGet (runEvents storeDone c1Events) opIdA = some op2 ∧
      op2.status = OpStatus.completed) :=
  ⟨rfl, rfl, by decide,
    c1_status_terminal_monotonic storeDone c1Events opIdA opDone rfl rfl (by decide)⟩

/-- Claim C2 counterexample: in the store reached from startup by one
creation and one done-without-URI monitor tick, the operation is
`completed` while its artifact reference (`videoUrl`) is null — refuting
"artifactRef is non-null iff status is completed". -/
theorem c2_artifact_iff_completed_cex :
    (storeGet (runEvents [] c2Events) genIdA).map (fun o => (o.status, o.videoUrl)) =
      some (OpStatus.completed, none) := rfl

/-- Claim C2 (amended): in every store reachable from startup, the
artifact reference is null whenever the status is `processing` (so a
non-null `videoUrl` implies `completed`); a `completed` operation may
nevertheless carry a null `videoUrl` when the done response had no
extractable URI. -/
theorem c2_processing_null_artifact (es : List Event) (id : String) (op : Operation)
    (hget : storeGet (runEvents [] es) id = some op)
    (hp : op.status = OpStatus.processing) : op.videoUrl = none := by
  refine storeInv_run es [] ?_ id op hget hp
  intro id2 op2 hg2 _
  simp [storeGet] at hg2

/-- Witness for the amended C2 at the store reached by a single creation. -/
theorem c2_processing_null_artifact_witness :
    storeGet (runEvents [] [genEvA]) genIdA = some
      { id := genIdA
        status := OpStatus.processing
        visualPrompt := some pVisualA
        audioPrompt := none
        duration := defaultDuration
        aspectRatio := defaultAspectRatio
        createdAt := 1
        completedAt := none
        remoteName := JsonVal.str remoteOpName
        videoUrl := none
        metadata := none } ∧
    ({ id := genIdA
       status := OpStatus.processing
       visualPrompt := some pVisualA
       audioPrompt := none
       duration := defaultDuration
       aspectRatio := defaultAspectRatio
       createdAt := 1
       completedAt := none
       remoteName := JsonVal.str remoteOpName
       videoUrl := none
       metadata := none } : Operation).videoUrl = none :=
  ⟨rfl, c2_processing_null_artifact [genEvA] genIdA _ rfl rfl⟩

/-- Claim C4: the Result Extractor yields the URI of the canonical shape,
yields the URI of the alternate shape, yields `NotFound` (null) on the
empty object, and prefers the canonical shape when both are present. -/
theorem c4_extractor_shapes :
    extractVideoUri canonicalBody = some (JsonVal.str kX) ∧
    extractVideoUri altBody = some (JsonVal.str kX) ∧
    extractVideoUri (JsonVal.obj []) = none ∧
    extractVideoUri bothBody = some (JsonVal.str kX) :=
  ⟨rfl, rfl, rfl, rfl⟩

/-- Claim C10: in the stateless variant the issued operation id is the
URL-encoding of the remote operation name, and the status and video
handlers recover the name by URL-decoding; decoding the issued id yields
exactly the original name for every operation name. -/
theorem c10_operation_id_roundtrip (operationName : List Char) :
    slRecoverName (slIssueId operationName) = some operationName := by
  unfold slRecoverName slIssueId
  exact decodeURIComponentL_encode operationName

/-- Claim C3 counterexample: a background monitor tick that sees
`done: true` with no extractable artifact stores the operation as
`completed` with a null `videoUrl` — not as a failed state — refuting
"transitions to Failed (not Completed)". -/
theorem c3_done_no_artifact_completed_cex :
    (storeGet (monitorTick opIdA 9 storeA 0 (PollResult.ok doneNoUriBody)).store opIdA).map
      (fun o => (o.status, o.videoUrl)) = some (OpStatus.completed, none) := rfl

/-- Claim C3 (amended): in the store-based monitor, every `done: true`
poll transitions the operation to `completed`, recording the extraction
result (null when no artifact is found), the raw `response` field as
metadata, and the completion timestamp.  In the stateless variant's read
path, `done: true` without an extractable artifact yields a `failed`
response carrying the raw JSON for diagnostics, and with an artifact it
yields a `completed` response with the proxy video URL and metadata. -/
theorem c3_done_result_handling (store : OpStore) (id : String) (op : Operation)
    (a now : Nat) (json : JsonVal) (pb oid : String) (json2 : JsonVal) :
    (storeGet store id = some op → op.status = OpStatus.processing →
      jsTruthyOpt (JsonVal.getField json kDone) = true →
      storeGet (monitorTick id now store a (PollResult.ok json)).store id =
        some { op with
          status := OpStatus.completed
          videoUrl := inlineVideoUri json
          metadata := JsonVal.getField json kResponse
          completedAt := some now }) ∧
    (jsTruthyOpt (JsonVal.getField json2 kDone) = true →
      extractVideoUriOpt (JsonVal.getField json2 kResponse) = none →
      slStatusRead true pb oid (PollResult.ok json2) = SLStatusResponse.failed json2) ∧
    (∀ u, jsTruthyOpt (JsonVal.getField json2 kDone) = true →
      extractVideoUriOpt (JsonVal.getField json2 kResponse) = some u →
      slStatusRead true pb oid (PollResult.ok json2) =
        SLStatusResponse.completed oid (pb ++ apiVideoPath ++ oid)
          (JsonVal.getField json2 kResponse)) := by
  refine ⟨?_, ?_, ?_⟩
  · intro hget hp hd
    have hc : ¬ op.status = OpStatus.completed := by
      rw [hp]
      intro h
      cases h
    unfold monitorTick
    simp only [hget, if_neg hc, if_pos hd]
    exact storeGet_storeSet_self store id _
  · intro hd hex
    unfold slStatusRead
    simp only [show ¬ (true = false) from by decide, if_neg, hd]
    simp only [Bool.true_eq_false, if_false, hex]
  · intro u hd hex
    unfold slStatusRead
    simp only [show ¬ (true = false) from by decide, if_neg, hd]
    simp only [Bool.true_eq_false, if_false, hex]

/-- Witness for the amended C3: the monitor on a done body with the
canonical shape stores a completed record with its URI; the stateless read
on a done body without extractable URI reports `failed` with the raw
JSON, and with the canonical shape reports `completed`. -/
theorem c3_done_result_handling_witness :
    storeGet (monitorTick opIdA 9 storeA 0 (PollResult.ok doneCanonicalBody)).store opIdA =
      some { opA with
        status := OpStatus.completed
        videoUrl := inlineVideoUri doneCanonicalBody
        metadata := JsonVal.getField doneCanonicalBody kResponse
        completedAt := some 9 } ∧
    slStatusRead true pubBase opIdA (PollResult.ok doneNoUriBody) =
      SLStatusResponse.failed doneNoUriBody ∧
    slStatusRead true pubBase opIdA (PollResult.ok doneCanonicalBody) =
      SLStatusResponse.completed opIdA (pubBase ++ apiVideoPath ++ opIdA)
        (JsonVal.getField doneCanonicalBody kResponse) :=
  ⟨(c3_done_result_handling storeA opIdA opA 0 9 doneCanonicalBody pubBase opIdA
      doneNoUriBody).1 rfl rfl rfl,
   (c3_done_result_handling storeA opIdA opA 0 9 doneCanonicalBody pubBase opIdA
      doneNoUriBody).2.1 rfl rfl,
   (c3_done_result_handling storeA opIdA opA 0 9 doneCanonicalBody pubBase opIdA
      doneCanonicalBody).2.2 (JsonVal.str kX) rfl rfl⟩

set_option maxRecDepth 10000 in
/-- Claim C5 counterexample: after the 120-attempt cap is reached on
done-false polls, the interval is cleared (polling halts) but the stored
operation still has status `processing` — it never transitions to any
`TimedOut` state (the code records no such state). -/
theorem c5_cap_no_timeout_state_cex :
    (runTicks opIdA 3 ⟨storeA, 0, true⟩ notDonePolls).fst.active = false ∧
    (storeGet (runTicks opIdA 3 ⟨storeA, 0, true⟩ notDonePolls).fst.store opIdA).map
      (fun o => o.status) = some OpStatus.processing := ⟨rfl, rfl⟩

/-- Claim C5 (amended): an operation whose polls all return `done: false`
has its polling halted after exactly 120 ticks with the stored record
unchanged — still `processing`; no `TimedOut` status is recorded.  Once
the interval is cleared no further poll calls are issued.  However, a
tick that ends in a non-2xx upstream response returns before the cap
check, so such a tick never halts polling even past the cap. -/
theorem c5_cap_halts_polling (m : OpStore) (id : String) (op : Operation) (now : Nat)
    (ps : List PollResult) (a : Nat)
    (h1 : storeGet m id = some op) (h2 : op.status = OpStatus.processing) :
    runTicks id now ⟨m, 0, true⟩ notDonePolls = (⟨m, 120, false⟩, 120) ∧
    runTicks id now ⟨m, 120, false⟩ ps = (⟨m, 120, false⟩, 0) ∧
    (monitorTick id now m a (PollResult.httpError 500 errText)).active = true := by
  have hc : ¬ op.status = OpStatus.completed := by
    rw [h2]
    intro h
    cases h
  refine ⟨?_, runTicks_inactive id now m 120 ps, ?_⟩
  · exact runTicks_notDone 120 m id op 0 now h1 h2 (by decide) (by decide)
  · unfold monitorTick
    simp only [h1, if_neg hc]

set_option maxRecDepth 10000 in
/-- Witness for the amended C5 at a concrete store. -/
theorem c5_cap_halts_polling_witness :
    runTicks opIdA 3 ⟨storeA, 0, true⟩ notDonePolls = (⟨storeA, 120, false⟩, 120) ∧
    runTicks opIdA 3 ⟨storeA, 120, false⟩ [PollResult.transportError] =
      (⟨storeA, 120, false⟩, 0) ∧
    (monitorTick opIdA 3 storeA 150 (PollResult.httpError 500 errText)).active = true :=
  c5_cap_halts_polling storeA opIdA opA 3 [PollResult.transportError] 150 rfl rfl

/-- Claim C6: a background tick whose poll ends in a transport error or a
non-2xx upstream response leaves the stored operation state unchanged,
logs the error, issues the poll, and (within the attempt cap) leaves the
interval scheduled so that polling is retried on the next tick; a poll
error never transitions the operation to a terminal state. -/
theorem c6_poll_error_transient (m : OpStore) (id : String) (op : Operation)
    (a now : Nat) (p : PollResult)
    (h1 : storeGet m id = some op) (h2 : op.status = OpStatus.processing)
    (h3 : p.isError = true) (h4 : a + 1 < maxAttempts) :
    (monitorTick id now m a p).store = m ∧
    (monitorTick id now m a p).active = true ∧
    (monitorTick id now m a p).polled = true ∧
    (monitorTick id now m a p).loggedError = true := by
  have hc : ¬ op.status = OpStatus.completed := by
    rw [h2]
    intro h
    cases h
  unfold monitorTick
  simp only [h1, if_neg hc]
  cases p with
  | ok json => simp [PollResult.isError] at h3
  | httpError s t => exact ⟨rfl, rfl, rfl, rfl⟩
  | transportError =>
    refine ⟨rfl, ?_, rfl, rfl⟩
    show decide (a + 1 < maxAttempts) = true
    exact decide_eq_true h4

/-- Witness for C6: a transport-error tick at attempt 0 on a concrete
store. -/
theorem c6_poll_error_transient_witness :
    storeGet storeA opIdA = some opA ∧
    opA.status = OpStatus.processing ∧
    PollResult.transportError.isError = true ∧
    0 + 1 < maxAttempts ∧
    ((monitorTick opIdA 2 storeA 0 PollResult.transportError).store = storeA ∧
     (monitorTick opIdA 2 storeA 0 PollResult.transportError).active = true ∧
     (monitorTick opIdA 2 storeA 0 PollResult.transportError).polled = true ∧
     (monitorTick opIdA 2 storeA 0 PollResult.transportError).loggedError = true) :=
  ⟨rfl, rfl, rfl, by decide,
    c6_poll_error_transient storeA opIdA opA 0 2 PollResult.transportError rfl rfl rfl
      (by decide)⟩

/-- Claim C7 counterexample: in a reachable store whose operation is
`completed` but has a null `videoUrl` (done response without extractable
URI), a status read does issue a remote poll — refuting "zero remote
poll calls for every completed operation". -/
theorem c7_completed_cached_cex :
    (storeGet c7Store genIdA).map (fun o => o.status) = some OpStatus.completed ∧
    (statusRead c7Store genIdA 7 (PollResult.ok notDoneBody)).polled = true := ⟨rfl, rfl⟩

/-- Claim C7 (amended): a status read of an operation whose stored status
is `completed` and whose cached `videoUrl` is truthy returns the cached
artifact reference and metadata with HTTP 200, issues zero remote poll
calls, and leaves the store unchanged; a completed operation with a null
`videoUrl` falls through to a re-poll instead. -/
theorem c7_completed_cached_no_poll (m : OpStore) (id : String) (op : Operation)
    (now : Nat) (p : PollResult)
    (h1 : storeGet m id = some op) (h2 : op.status = OpStatus.completed)
    (h3 : jsTruthyOpt op.videoUrl = true) :
    (statusRead m id now p).polled = false ∧
    (statusRead m id now p).store = m ∧
    (statusRead m id now p).httpStatus = 200 ∧
    (statusRead m id now p).body = ReadBody.completedResp id op.videoUrl op.metadata := by
  unfold statusRead
  simp only [h1, if_pos (And.intro h2 h3)]
  refine ⟨?_, ?_, ?_, ?_⟩ <;> trivial

/-- Witness for the amended C7 at a completed operation with a cached
URL. -/
theorem c7_completed_cached_no_poll_witness :
    storeGet storeDone opIdA = some opDone ∧
    opDone.status = OpStatus.completed ∧
    jsTruthyOpt opDone.videoUrl = true ∧
    ((statusRead storeDone opIdA 7 (PollResult.ok notDoneBody)).polled = false ∧
     (statusRead storeDone opIdA 7 (PollResult.ok notDoneBody)).store = storeDone ∧
     (statusRead storeDone opIdA 7 (PollResult.ok notDoneBody)).httpStatus = 200 ∧
     (statusRead storeDone opIdA 7 (PollResult.ok notDoneBody)).body =
       ReadBody.completedResp opIdA opDone.videoUrl opDone.metadata) :=
  ⟨rfl, rfl, rfl,
    c7_completed_cached_no_poll storeDone opIdA opDone 7 (PollResult.ok notDoneBody)
      rfl rfl rfl⟩

/-- Claim C8: a status read for an id not present in the operation store
returns HTTP 404 with an operation-not-found body, issues no remote call,
and leaves the store unchanged (and, being total, never crashes). -/
theorem c8_unknown_id_not_found (m : OpStore) (id : String) (now : Nat) (p : PollResult)
    (h : storeGet m id = none) :
    (statusRead m id now p).httpStatus = 404 ∧
    (statusRead m id now p).polled = false ∧
    (statusRead m id now p).store = m ∧
    (statusRead m id now p).body = ReadBody.notFound id := by
  unfold statusRead
  simp only [h]
  refine ⟨?_, ?_, ?_, ?_⟩ <;> trivial

/-- Witness for C8 at the empty store. -/
theorem c8_unknown_id_not_found_witness :
    storeGet ([] : OpStore) opIdA = none ∧
    ((statusRead [] opIdA 4 (PollResult.ok notDoneBody)).httpStatus = 404 ∧
     (statusRead [] opIdA 4 (PollResult.ok notDoneBody)).polled = false ∧
     (statusRead [] opIdA 4 (PollResult.ok notDoneBody)).store = [] ∧
     (statusRead [] opIdA 4 (PollResult.ok notDoneBody)).body = ReadBody.notFound opIdA) :=
  ⟨rfl, c8_unknown_id_not_found [] opIdA 4 (PollResult.ok notDoneBody) rfl⟩

/-- Claim C9 counterexample: two creation requests whose clock reading and
random digits coincide are issued the same operation id, and the second
creation overwrites the first store entry (the store still has exactly one
entry, now holding the second request's prompt) — refuting "ids are never
reused and creation never overwrites an existing entry". -/
theorem c9_fresh_id_cex :
    genResA.response = GenResponse.started dupId ∧
    genResB.response = GenResponse.started dupId ∧
    (storeGet genResA.store dupId).map (fun o => o.visualPrompt) = some (some pVisualA) ∧
    (storeGet genResB.store dupId).map (fun o => o.visualPrompt) = some (some pVisualB) ∧
    genResB.store.length = 1 := ⟨rfl, rfl, rfl, rfl, rfl⟩

/-- Claim C9 (amended): a valid creation request with a configured
credential and a successful submission returns the id derived from the
current clock reading and random digits, and immediately afterwards the
store maps that id to a `processing` record with null `videoUrl` while
every other entry is untouched.  Ids are not guaranteed fresh: equal
generator inputs reproduce the same id and overwrite the entry. -/
theorem c9_create_stores_processing (req : GenRequest)
    (data nm : JsonVal) (timeMs : Nat) (randDigits : String) (now : Nat) (store : OpStore)
    (hv : strTruthy req.visualPrompt = true)
    (hn : JsonVal.getField data kName = some nm) (ht : jsTruthy nm = true) :
    (generate true req (SubmitResult.ok data) timeMs randDigits now store).response =
      GenResponse.started (makeOperationId timeMs randDigits) ∧
    storeGet
        (generate true req (SubmitResult.ok data) timeMs randDigits now store).store
        (makeOperationId timeMs randDigits) =
      some { id := makeOperationId timeMs randDigits
             status := OpStatus.processing
             visualPrompt := req.visualPrompt
             audioPrompt := req.audioPrompt
             duration := req.duration.getD defaultDuration
             aspectRatio := req.aspectRatio.getD defaultAspectRatio
             createdAt := now
             completedAt := none
             remoteName := nm
             videoUrl := none
             metadata := none } ∧
    (∀ id2, id2 ≠ makeOperationId timeMs randDigits →
      storeGet
        (generate true req (SubmitResult.ok data) timeMs randDigits now store).store id2 =
        storeGet store id2) := by
  have h1 : ¬ (true = false) := by decide
  have h2 : ¬ (strTruthy req.visualPrompt = false) := by
    rw [hv]
    decide
  unfold generate
  simp only [if_neg h1, if_neg h2, hn, if_pos ht]
  refine ⟨by trivial, storeGet_storeSet_self _ _ _,
    fun id2 hne => storeGet_storeSet_ne _ _ _ _ hne⟩

/-- Witness for the amended C9 at a concrete creation. -/
theorem c9_create_stores_processing_witness :
    strTruthy testReq.visualPrompt = true ∧
    JsonVal.getField okNameData kName = some (JsonVal.str remoteOpName) ∧
    jsTruthy (JsonVal.str remoteOpName) = true ∧
    ((generate true testReq (SubmitResult.ok okNameData) 5 rTestRand 5 []).response =
      GenResponse.started dupId ∧
     storeGet (generate true testReq (SubmitResult.ok okNameData) 5 rTestRand 5 []).store
        dupId =
      some { id := dupId
             status := OpStatus.processing
             visualPrompt := testReq.visualPrompt
             audioPrompt := testReq.audioPrompt
             duration := testReq.duration.getD defaultDuration
             aspectRatio := testReq.aspectRatio.getD defaultAspectRatio
             createdAt := 5
             completedAt := none
             remoteName := JsonVal.str remoteOpName
             videoUrl := none
             metadata := none }) :=
  ⟨rfl, rfl, rfl,
    (c9_create_stores_processing testReq okNameData (JsonVal.str remoteOpName) 5 rTestRand
       5 [] rfl rfl rfl).1,
    (c9_create_stores_processing testReq okNameData (JsonVal.str remoteOpName) 5 rTestRand
       5 [] rfl rfl rfl).2.1⟩
